import Mathlib

/-!
# Verification of the daggerverse modules (glow, signoff)

Shallow embedding of the two Dagger modules of this repository:

* `Glow` (glow/main.go): markdown rendering helpers `DisplayMarkdown` and
  `ReadMe`.
* `Signoff` (signoff module): a session object holding a container in which
  `git` / `gh` commands are executed.  Each method appends commands to the
  container and observes stdout / stderr / exit code of the resulting
  container state.

The external world (the Dagger engine running the container) is modelled by
an oracle `Env` mapping the full history of executed commands to the three
observable results, each of which may independently fail (the Go methods
`Stdout`, `Stderr`, `ExitCode` all return `(value, error)` pairs).

The `Signoff` receiver in Go is mutated in place (`m.Container =
m.Container.WithExec(args)`), so the methods are embedded as state-passing
functions returning the result together with the updated state.
-/

namespace Daggerverse

deriving instance DecidableEq for Except

/-- Result of querying a container state: the three observables of the last
executed command, each of which can fail independently (the Go SDK calls
return `(string, error)` / `(int, error)`). Errors are opaque messages. -/
structure ExecResult where
  stdout : Except String String
  stderr : Except String String
  exitCode : Except String Int
deriving DecidableEq, Repr

/-- The environment oracle: from the full command history of the container
(the list of argv vectors passed to `WithExec`, in order) to the observable
results of the container in that state. -/
def Env : Type := List (List String) → ExecResult

/-- The `Signoff` session state: the container is represented by the history
of commands appended to it via `WithExec`; `checkName` is the `CheckName`
field (default `"signoff"`). The `Sources` directory and `Token` secret are
opaque and only feed container construction, which the oracle abstracts. -/
structure SignoffState where
  container : List (List String)
  checkName : String
deriving DecidableEq, Repr

/-- Whitespace class of the Go function `strings.TrimSpace` (restricted to the ASCII
space characters, which is all that command output contains here). -/
def isSpaceChar (c : Char) : Bool :=
  c = ' ' || c = '\t' || c = '\n' || c = '\r' || c = '\x0b' || c = '\x0c'

/-- Model of the Go function `strings.TrimSpace`: drop leading and trailing whitespace
characters. Defined over the character list so that it evaluates by kernel
reduction. -/
def trimSpace (s : String) : String :=
  ⟨((s.data.dropWhile isSpaceChar).reverse.dropWhile isSpaceChar).reverse⟩

namespace Signoff

/-- Embedding of `func (m *Signoff) WithExec(args []string) *Signoff`:
appends the command to the container and returns the (mutated) session. -/
def WithExec (args : List String) (s : SignoffState) : SignoffState :=
  { s with container := s.container ++ [args] }

/-- Embedding of `func (m *Signoff) WithGitExec(args []string) *Signoff`:
prepends `"git"` to the arguments. -/
def WithGitExec (args : List String) (s : SignoffState) : SignoffState :=
  WithExec ("git" :: args) s

/-- Embedding of `func (m *Signoff) WithGhExec(args []string) *Signoff`:
prepends `"gh"` to the arguments. -/
def WithGhExec (args : List String) (s : SignoffState) : SignoffState :=
  WithExec ("gh" :: args) s

/-- Embedding of `func (m *Signoff) Stdout(ctx) (string, error)`: stdout of the current
container state. -/
def Stdout (env : Env) (s : SignoffState) : Except String String :=
  (env s.container).stdout

/-- Embedding of `func (m *Signoff) Stderr(ctx) (string, error)`: stderr of the current
container state. -/
def Stderr (env : Env) (s : SignoffState) : Except String String :=
  (env s.container).stderr

/-- Embedding of `func (m *Signoff) ExitCode(ctx) (int, error)`: exit code of the current
container state. -/
def ExitCode (env : Env) (s : SignoffState) : Except String Int :=
  (env s.container).exitCode

/-- Embedding of `func (m *Signoff) Out(ctx) (string, error)` (part_002 lines 260-278):
queries stdout, then stderr, concatenates them with a newline in between,
then queries the exit code; a nonzero exit code yields the error
`"exit code %d"` while still returning the combined output. The error case
carries the pair (returned string, error message), matching the Go
`(string, error)` return where both can be non-empty. -/
def Out (env : Env) (s : SignoffState) : Except (String × String) String :=
  match Stdout env s with
  | .error e => .error ("", e)
  | .ok stdOut =>
    match Stderr env s with
    | .error e => .error ("", e)
    | .ok stdErr =>
      let out := stdOut ++ "\n" ++ stdErr
      match ExitCode env s with
      | .error e => .error ("", e)
      | .ok exitCode =>
        if exitCode ≠ 0 then .error (out, "exit code " ++ toString exitCode)
        else .ok out

/-- The `git status --porcelain` command issued by `IsClean`. -/
def gitStatusCmd : List String := ["git", "status", "--porcelain"]

/-- The `git rev-parse --abbrev-ref @{push}` command issued by `IsClean`. -/
def gitTrackCmd : List String := ["git", "rev-parse", "--abbrev-ref", "@{push}"]

/-- The `git log @{push}..` command issued by `IsClean`. -/
def gitLogCmd : List String := ["git", "log", "@{push}.."]

/-- Embedding of `func (m *Signoff) IsClean(ctx) error` (part_002 lines 57-70): three
checks in order — uncommitted changes (`git status --porcelain` stdout must
be empty), tracking branch (`git rev-parse --abbrev-ref @{push}` must exit
0), unpushed commits (`git log @{push}..` stdout must be empty). Each check
short-circuits with its own error message; in Go each condition is
`err != nil || out != ""` (resp. `err != nil || exitCode != 0`). -/
def IsClean (env : Env) (s : SignoffState) : Except String Unit × SignoffState :=
  let s1 := WithGitExec ["status", "--porcelain"] s
  match Stdout env s1 with
  | .error _ => (.error "found uncommitted changes in the repo", s1)
  | .ok out =>
    if out ≠ "" then (.error "found uncommitted changes in the repo", s1)
    else
      let s2 := WithGitExec ["rev-parse", "--abbrev-ref", "@{push}"] s1
      match ExitCode env s2 with
      | .error _ => (.error "no tracking branch found", s2)
      | .ok exitCode =>
        if exitCode ≠ 0 then (.error "no tracking branch found", s2)
        else
          let s3 := WithGitExec ["log", "@{push}.."] s2
          match Stdout env s3 with
          | .error _ => (.error "found unpushed commits in the repo", s3)
          | .ok out2 =>
            if out2 ≠ "" then (.error "found unpushed commits in the repo", s3)
            else (.ok (), s3)

/-- Embedding of `func (m *Signoff) Sha(ctx) (string, error)` (part_002 lines 183-189):
`git rev-parse HEAD`, stdout trimmed with `strings.TrimSpace`. -/
def Sha (env : Env) (s : SignoffState) : Except String String × SignoffState :=
  let s1 := WithGitExec ["rev-parse", "HEAD"] s
  match Stdout env s1 with
  | .error e => (.error e, s1)
  | .ok out => (.ok (trimSpace out), s1)

/-- Embedding of `func (m *Signoff) WhoIs(ctx) (string, error)` (part_002 lines 192-200):
`gh api user --jq .login` through `Out`, result trimmed with
`strings.TrimSpace`; on error the captured output is dropped (`return "", err`). -/
def WhoIs (env : Env) (s : SignoffState) : Except String String × SignoffState :=
  let s1 := WithGhExec ["api", "user", "--jq", ".login"] s
  match Out env s1 with
  | .error pe => (.error pe.2, s1)
  | .ok out => (.ok (trimSpace out), s1)

/-- The `gh api repos/:owner/:repo --jq .default_branch` command. -/
def defaultBranchCmd : List String :=
  ["gh", "api", "repos/:owner/:repo", "--jq", ".default_branch"]

/-- Embedding of `func (m *Signoff) DefaultBranch(ctx) (string, error)` (part_002 lines
293-299): `gh api repos/:owner/:repo --jq .default_branch`, returning the
raw stdout directly — note: unlike `Sha` and `WhoIs`, the Go code applies no
`strings.TrimSpace` here. -/
def DefaultBranch (env : Env) (s : SignoffState) : Except String String × SignoffState :=
  let s1 := WithGhExec ["api", "repos/:owner/:repo", "--jq", ".default_branch"] s
  (Stdout env s1, s1)

/-- The argument vector of the commit-status POST issued by `Create`
(part_002 lines 92-99), after the implicit `"gh"`:
`gh api --method POST repos/:owner/:repo/statuses/<sha> -f state=success
-f context=<checkName> -f description="<user> signed off"`. -/
def statusPostArgs (checkName sha user : String) : List String :=
  ["api", "--method", "POST", "repos/:owner/:repo/statuses/" ++ sha,
   "-f", "state=success",
   "-f", "context=" ++ checkName,
   "-f", "description=\"" ++ user ++ " signed off\""]

/-- Recognises a `gh api --method POST ...` command vector; within the
`Create` workflow the only such command is the commit-status POST. -/
def isStatusPost (cmd : List String) : Bool :=
  match cmd with
  | "gh" :: "api" :: "--method" :: "POST" :: _ => true
  | _ => false

/-- Embedding of `func (m *Signoff) Create(ctx) error` (part_002 lines 77-108):
cleanliness gate, then `Sha`, then `WhoIs`, then the commit-status POST via
`Out`; a failing POST is wrapped as `fmt.Errorf("%s: %w", out, err)`
(modelled as `out ++ ": " ++ err`). The success-path `fmt.Println` is
console output and not modelled. -/
def Create (env : Env) (s : SignoffState) : Except String Unit × SignoffState :=
  match IsClean env s with
  | (.error e, s1) => (.error e, s1)
  | (.ok _, s1) =>
    match Sha env s1 with
    | (.error e, s2) => (.error e, s2)
    | (.ok sha, s2) =>
      match WhoIs env s2 with
      | (.error e, s3) => (.error e, s3)
      | (.ok user, s3) =>
        let s4 := WithGhExec (statusPostArgs s.checkName sha user) s3
        match Out env s4 with
        | .error pe => (.error (pe.1 ++ ": " ++ pe.2), s4)
        | .ok _ => (.ok (), s4)

/-- The argument vector of the branch-protection PUT issued by `Install`
(part_002 lines 128-139), after the implicit `"gh"`. -/
def protectionPutArgs (branch checkName : String) : List String :=
  ["api", "/repos/:owner/:repo/branches/" ++ branch ++ "/protection",
   "--method", "PUT",
   "-H", "Accept: application/vnd.github+json",
   "-H", "X-GitHub-Api-Version: 2022-11-28",
   "--field", "required_status_checks[strict]=false",
   "--field", "required_status_checks[contexts][]=" ++ checkName,
   "--field", "enforce_admins=null",
   "--field", "required_pull_request_reviews=null",
   "--field", "restrictions=null"]

/-- The argument vector of the branch-protection DELETE issued by
`Uninstall` (part_002 lines 168-172), after the implicit `"gh"`. -/
def protectionDeleteArgs (branch : String) : List String :=
  ["api", "/repos/:owner/:repo/branches/" ++ branch ++ "/protection",
   "--method", "DELETE"]

/-- Predicate `listPfx ps ss` holds when `ps` is an initial segment of `ss`
(kernel-reducible prefix test used by `strPfx`). -/
def listPfx : List Char → List Char → Bool
  | [], _ => true
  | _ :: _, [] => false
  | a :: as, b :: bs => a == b && listPfx as bs

/-- Predicate `strPfx p s` holds when the string `p` is a prefix of the string `s`. -/
def strPfx (p s : String) : Bool :=
  listPfx p.data s.data

/-- Recognises a branch-protection request: a `gh api` command whose target
path is under `/repos/:owner/:repo/branches/`. -/
def isProtectionReq (cmd : List String) : Bool :=
  match cmd with
  | "gh" :: "api" :: url :: _ => strPfx "/repos/:owner/:repo/branches/" url
  | _ => false

/-- Embedding of `func (m *Signoff) Install(ctx, branch string) error` (part_002 lines
111-147): an empty branch argument is resolved via `DefaultBranch` (failure
wrapped as `could not get the default branch: ...`); an empty resolved
branch is a fatal precondition error before the PUT; a failing PUT is
wrapped with check name, branch and captured output. -/
def Install (env : Env) (branch : String) (s : SignoffState) :
    Except String Unit × SignoffState :=
  let resolved : Except String String × SignoffState :=
    if branch = "" then
      match DefaultBranch env s with
      | (.error e, s1) => (.error ("could not get the default branch: " ++ e), s1)
      | (.ok b, s1) => (.ok b, s1)
    else (.ok branch, s)
  match resolved with
  | (.error e, s1) => (.error e, s1)
  | (.ok b, s1) =>
    if b = "" then (.error "could not install without a branch name", s1)
    else
      let s2 := WithGhExec (protectionPutArgs b s1.checkName) s1
      match Out env s2 with
      | .error pe =>
        (.error ("could not install signoff check \"" ++ s1.checkName ++
          "\" to branch \"" ++ b ++ "\": " ++ pe.2 ++ "\n" ++ pe.1), s2)
      | .ok _ => (.ok (), s2)

/-- Embedding of `func (m *Signoff) Uninstall(ctx, branch string) error` (part_002 lines
151-180): same branch resolution as `Install`, then a branch-protection
DELETE. -/
def Uninstall (env : Env) (branch : String) (s : SignoffState) :
    Except String Unit × SignoffState :=
  let resolved : Except String String × SignoffState :=
    if branch = "" then
      match DefaultBranch env s with
      | (.error e, s1) => (.error ("could not get the default branch: " ++ e), s1)
      | (.ok b, s1) => (.ok b, s1)
    else (.ok branch, s)
  match resolved with
  | (.error e, s1) => (.error e, s1)
  | (.ok b, s1) =>
    if b = "" then (.error "could not uninstall without a branch name", s1)
    else
      let s2 := WithGhExec (protectionDeleteArgs b) s1
      match Out env s2 with
      | .error pe =>
        (.error ("could not uninstall branch protection for branch \"" ++ b ++
          "\": " ++ pe.2 ++ "\n" ++ pe.1), s2)
      | .ok _ => (.ok (), s2)

/-- The jq program string passed by `PullRequest` (part_002 line 212):
`.[] | select(.state == "open") | select(.base.ref == "<defaultBranch>") | .html_url`. -/
def pullsJq (defaultBranch : String) : String :=
  ".[] | select(.state == \"open\") | select(.base.ref == \"" ++ defaultBranch ++
    "\") | .html_url"

/-- Embedding of `func (m *Signoff) PullRequest(ctx) (string, error)` (part_002 lines
203-218): resolves the default branch, lists the repository pull requests
with the jq filter `pullsJq`, trims the stdout. -/
def PullRequest (env : Env) (s : SignoffState) : Except String String × SignoffState :=
  match DefaultBranch env s with
  | (.error e, s1) => (.error e, s1)
  | (.ok db, s1) =>
    let s2 := WithGhExec ["api", "repos/:owner/:repo/pulls", "--jq", pullsJq db] s1
    match Stdout env s2 with
    | .error e => (.error e, s2)
    | .ok out => (.ok (trimSpace out), s2)

/-- The fields of a pull-request object that the jq program of
`PullRequest` can observe, plus the head branch. -/
structure PullReq where
  state : String
  baseRef : String
  headRef : String
  htmlUrl : String
deriving DecidableEq, Repr

/-- Semantics of the jq program `pullsJq defaultBranch` over a list of
pull-request objects (the jq engine is external; this is the meaning of the
filter text built at part_002 line 212): keep the objects with
`state == "open"` and `base.ref == defaultBranch`, and project `html_url`.
The head branch is never consulted. -/
def pullsJqEval (defaultBranch : String) (prs : List PullReq) : List String :=
  ((prs.filter (fun pr => pr.state == "open")).filter
    (fun pr => pr.baseRef == defaultBranch)).map (fun pr => pr.htmlUrl)

/-- The `git rev-parse HEAD` command issued by `Sha`. -/
def gitShaCmd : List String := ["git", "rev-parse", "HEAD"]

/-- The `gh api user --jq .login` command issued by `WhoIs`. -/
def whoIsCmd : List String := ["gh", "api", "user", "--jq", ".login"]

/-- Condition (a) of `IsClean` on a state `s`: the `git status --porcelain`
query (appended to the current container) succeeds with empty stdout. -/
def notDirty (env : Env) (s : SignoffState) : Prop :=
  (env (s.container ++ [gitStatusCmd])).stdout = Except.ok ""

/-- Condition (b) of `IsClean`: the `git rev-parse --abbrev-ref @{push}`
query (issued after the status query) succeeds with exit code 0. -/
def hasTracking (env : Env) (s : SignoffState) : Prop :=
  (env (s.container ++ [gitStatusCmd] ++ [gitTrackCmd])).exitCode = Except.ok 0

/-- Condition (c) of `IsClean`: the `git log @{push}..` query (issued after
the two previous ones) succeeds with empty stdout. -/
def allPushed (env : Env) (s : SignoffState) : Prop :=
  (env (s.container ++ [gitStatusCmd] ++ [gitTrackCmd] ++ [gitLogCmd])).stdout =
    Except.ok ""

end Signoff

namespace Glow

/-- Embedding of `func (m *Glow) DisplayMarkdown(str string) (string, error)`
(glow/main.go lines 12-14): a single call `glamour.Render(str, "dark")`.
The rendering library is external; it is modelled as a function `render`
from the input string and the theme name to a result. -/
def DisplayMarkdown (render : String → String → Except String String)
    (str : String) : Except String String :=
  render str "dark"

/-- Embedding of `func (m *Glow) ReadMe(ctx, file) (string, error)` (part_000 lines
21-31): reads the file contents (modelled as an `Except`, since
`file.Contents(ctx)` can fail), wraps a read failure as
`could not read README.md: ...`, and otherwise renders the contents with
`DisplayMarkdown`. -/
def ReadMe (render : String → String → Except String String)
    (contents : Except String String) : Except String String :=
  match contents with
  | .error e => .error ("could not read README.md: " ++ e)
  | .ok c => DisplayMarkdown render c

end Glow

/-! ## Concrete test fixtures (environments used to instantiate theorems) -/

/-- Initial session state: empty container history, default check name. -/
def s0 : SignoffState := { container := [], checkName := "signoff" }

/-- An `ExecResult` with the given stdout, empty stderr and exit code 0. -/
def okRes (out : String) : ExecResult :=
  { stdout := .ok out, stderr := .ok "", exitCode := .ok 0 }

/-- Per-command results of a clean, tracked, fully-pushed repository whose
HEAD is `abc123` and whose authenticated user is `alice`; the result of a
`gh api --method POST` call is the parameter `post`, every other command
succeeds. -/
def cleanCmdRes (post : ExecResult) (c : List String) : ExecResult :=
  match c with
  | "gh" :: "api" :: "--method" :: "POST" :: _ => post
  | _ =>
    if c = Signoff.gitTrackCmd then okRes "origin/main"
    else if c = Signoff.gitShaCmd then okRes "abc123\n"
    else if c = Signoff.whoIsCmd then okRes "alice\n"
    else okRes ""

/-- Environment of a clean repository where every command, including the
commit-status POST, succeeds. -/
def envClean : Env := fun hist =>
  match hist.getLast? with
  | some c => cleanCmdRes (okRes "") c
  | none => okRes ""

/-- Environment of a clean repository where the commit-status POST fails
with stdout `so`, stderr `se` and exit code 1. -/
def envPostFails : Env := fun hist =>
  match hist.getLast? with
  | some c =>
    cleanCmdRes { stdout := .ok "so", stderr := .ok "se", exitCode := .ok 1 } c
  | none => okRes ""

/-- Environment of a repository with uncommitted changes: every command
prints a nonempty porcelain status line. -/
def envDirty : Env := fun _ => okRes "M main.go"

/-- Environment where every command prints `main` followed by a newline,
exhibiting the untrimmed `DefaultBranch` result. -/
def envDefaultNL : Env := fun _ => okRes "main\n"

/-- A concrete rendering function for instantiating the `Glow` theorems:
prefixes the input with the theme name. -/
def renderFix (str theme : String) : Except String String :=
  .ok (theme ++ ": " ++ str)

/-! ## Theorems -/

namespace Signoff

instance (env : Env) (s : SignoffState) : Decidable (notDirty env s) := by
  unfold notDirty; infer_instance

instance (env : Env) (s : SignoffState) : Decidable (hasTracking env s) := by
  unfold hasTracking; infer_instance

instance (env : Env) (s : SignoffState) : Decidable (allPushed env s) := by
  unfold allPushed; infer_instance

/-- On a dirty working tree (first condition violated), `IsClean` stops
after the status command with the uncommitted-changes message. -/
theorem isClean_dirty (env : Env) (s : SignoffState) (h : ¬ notDirty env s) :
    IsClean env s = (.error "found uncommitted changes in the repo",
      WithGitExec ["status", "--porcelain"] s) := by
  unfold notDirty gitStatusCmd at h
  simp only [IsClean, Stdout, WithGitExec, WithExec]
  rcases hst : (env (s.container ++ [["git", "status", "--porcelain"]])).stdout with e | out
  · rfl
  · rw [hst] at h
    have hne : out ≠ "" := fun he => h (by rw [he])
    dsimp only
    rw [if_pos hne]

/-- With a clean tree but no tracking branch, `IsClean` stops after the
rev-parse command with the no-tracking-branch message. -/
theorem isClean_untracked (env : Env) (s : SignoffState)
    (h1 : notDirty env s) (h2 : ¬ hasTracking env s) :
    IsClean env s = (.error "no tracking branch found",
      WithGitExec ["rev-parse", "--abbrev-ref", "@{push}"]
        (WithGitExec ["status", "--porcelain"] s)) := by
  unfold notDirty gitStatusCmd at h1
  unfold hasTracking gitStatusCmd gitTrackCmd at h2
  simp only [IsClean, Stdout, ExitCode, WithGitExec, WithExec]
  rw [h1]
  dsimp only
  rw [if_neg (not_not_intro rfl)]
  rcases hec : (env (s.container ++ [["git", "status", "--porcelain"]] ++
      [["git", "rev-parse", "--abbrev-ref", "@{push}"]])).exitCode with e | code
  · rfl
  · rw [hec] at h2
    have hne : code ≠ 0 := fun he => h2 (by rw [he])
    dsimp only
    rw [if_pos hne]

/-- With a clean tracked tree but unpushed commits, `IsClean` stops after
the log command with the unpushed-commits message. -/
theorem isClean_ahead (env : Env) (s : SignoffState)
    (h1 : notDirty env s) (h2 : hasTracking env s) (h3 : ¬ allPushed env s) :
    IsClean env s = (.error "found unpushed commits in the repo",
      WithGitExec ["log", "@{push}.."]
        (WithGitExec ["rev-parse", "--abbrev-ref", "@{push}"]
          (WithGitExec ["status", "--porcelain"] s))) := by
  unfold notDirty gitStatusCmd at h1
  unfold hasTracking gitStatusCmd gitTrackCmd at h2
  unfold allPushed gitStatusCmd gitTrackCmd gitLogCmd at h3
  simp only [IsClean, Stdout, ExitCode, WithGitExec, WithExec]
  rw [h1]
  dsimp only
  rw [if_neg (not_not_intro rfl)]
  rw [h2]
  dsimp only
  rw [if_neg (not_not_intro rfl)]
  rcases hlg : (env (s.container ++ [["git", "status", "--porcelain"]] ++
      [["git", "rev-parse", "--abbrev-ref", "@{push}"]] ++
      [["git", "log", "@{push}.."]])).stdout with e | out
  · rfl
  · rw [hlg] at h3
    have hne : out ≠ "" := fun he => h3 (by rw [he])
    dsimp only
    rw [if_pos hne]

/-- When all three conditions hold, `IsClean` succeeds after issuing the
three git commands in order. -/
theorem isClean_ok (env : Env) (s : SignoffState)
    (h1 : notDirty env s) (h2 : hasTracking env s) (h3 : allPushed env s) :
    IsClean env s = (.ok (),
      WithGitExec ["log", "@{push}.."]
        (WithGitExec ["rev-parse", "--abbrev-ref", "@{push}"]
          (WithGitExec ["status", "--porcelain"] s))) := by
  unfold notDirty gitStatusCmd at h1
  unfold hasTracking gitStatusCmd gitTrackCmd at h2
  unfold allPushed gitStatusCmd gitTrackCmd gitLogCmd at h3
  simp only [IsClean, Stdout, ExitCode, WithGitExec, WithExec]
  rw [h1]
  dsimp only
  rw [if_neg (not_not_intro rfl)]
  rw [h2]
  dsimp only
  rw [if_neg (not_not_intro rfl)]
  rw [h3]
  dsimp only
  rw [if_neg (not_not_intro rfl)]

/-- Lemma: `IsClean` succeeds exactly when the three conditions jointly hold. -/
theorem isClean_ok_iff (env : Env) (s : SignoffState) :
    (IsClean env s).1 = .ok () ↔
      notDirty env s ∧ hasTracking env s ∧ allPushed env s := by
  constructor
  · intro h
    by_cases h1 : notDirty env s
    · by_cases h2 : hasTracking env s
      · by_cases h3 : allPushed env s
        · exact ⟨h1, h2, h3⟩
        · rw [isClean_ahead env s h1 h2 h3] at h; simp at h
      · rw [isClean_untracked env s h1 h2] at h; simp at h
    · rw [isClean_dirty env s h1] at h; simp at h
  · rintro ⟨h1, h2, h3⟩
    rw [isClean_ok env s h1 h2 h3]

/-- C1: `IsClean` evaluates its three conditions in the fixed order
dirty (uncommitted changes) → untracked (no tracking branch) → ahead
(unpushed commits); it succeeds exactly when all three hold, and on failure
it returns the distinct, condition-specific message of the first failing
condition without evaluating the later conditions (the returned container
holds exactly the commands issued up to the failing check). -/
theorem c1_isClean_gate (env : Env) (s : SignoffState) :
    ((IsClean env s).1 = .ok () ↔
      notDirty env s ∧ hasTracking env s ∧ allPushed env s)
    ∧ (¬ notDirty env s → IsClean env s =
        (.error "found uncommitted changes in the repo",
          WithGitExec ["status", "--porcelain"] s))
    ∧ (notDirty env s → ¬ hasTracking env s → IsClean env s =
        (.error "no tracking branch found",
          WithGitExec ["rev-parse", "--abbrev-ref", "@{push}"]
            (WithGitExec ["status", "--porcelain"] s)))
    ∧ (notDirty env s → hasTracking env s → ¬ allPushed env s → IsClean env s =
        (.error "found unpushed commits in the repo",
          WithGitExec ["log", "@{push}.."]
            (WithGitExec ["rev-parse", "--abbrev-ref", "@{push}"]
              (WithGitExec ["status", "--porcelain"] s))))
    ∧ ("found uncommitted changes in the repo" : String) ≠ "no tracking branch found"
    ∧ ("found uncommitted changes in the repo" : String) ≠ "found unpushed commits in the repo"
    ∧ ("no tracking branch found" : String) ≠ "found unpushed commits in the repo" :=
  ⟨isClean_ok_iff env s, isClean_dirty env s, isClean_untracked env s,
   isClean_ahead env s, by decide, by decide, by decide⟩

/-- Witness for C1: in the dirty environment the gate fails with the
uncommitted-changes message, with only the status command issued. -/
theorem c1_isClean_gate_witness :
    IsClean envDirty s0 =
      (.error "found uncommitted changes in the repo",
        WithGitExec ["status", "--porcelain"] s0) :=
  (c1_isClean_gate envDirty s0).2.1 (by decide)

/-- When the cleanliness gate fails, `Create` returns the same error and the
same session state. -/
theorem create_of_isClean_error (env : Env) (s s1 : SignoffState) (e : String)
    (h : IsClean env s = (.error e, s1)) : Create env s = (.error e, s1) := by
  simp only [Create]
  rw [h]

/-- Whatever happens, the state returned by `IsClean` is the input state
extended by a prefix of the three git commands. -/
theorem isClean_state_cases (env : Env) (s : SignoffState) :
    (IsClean env s).2 = WithGitExec ["status", "--porcelain"] s
    ∨ (IsClean env s).2 = WithGitExec ["rev-parse", "--abbrev-ref", "@{push}"]
        (WithGitExec ["status", "--porcelain"] s)
    ∨ (IsClean env s).2 = WithGitExec ["log", "@{push}.."]
        (WithGitExec ["rev-parse", "--abbrev-ref", "@{push}"]
          (WithGitExec ["status", "--porcelain"] s)) := by
  simp only [IsClean]
  split
  · left; rfl
  · split
    · left; rfl
    · split
      · right; left; rfl
      · split
        · right; left; rfl
        · split
          · right; right; rfl
          · split
            · right; right; rfl
            · right; right; rfl

/-- C2: whenever `IsClean` fails, `Create` propagates exactly that error and
the resulting container history holds no `gh api --method POST` command: the
commit-status POST is never issued on a failed cleanliness gate. -/
theorem c2_no_post_when_unclean (env : Env) (s : SignoffState)
    (e : String) (s1 : SignoffState)
    (h : IsClean env s = (.error e, s1)) :
    Create env s = (.error e, s1)
    ∧ ∃ l, s1.container = s.container ++ l ∧ l.countP isStatusPost = 0 := by
  refine ⟨create_of_isClean_error env s s1 e h, ?_⟩
  have hc := isClean_state_cases env s
  rw [h] at hc
  rcases hc with hc | hc | hc
  · exact ⟨[gitStatusCmd], by rw [show s1 = _ from hc]; rfl, rfl⟩
  · refine ⟨[gitStatusCmd, gitTrackCmd], ?_, rfl⟩
    rw [show s1 = _ from hc]
    simp [WithGitExec, WithExec, gitStatusCmd, gitTrackCmd]
  · refine ⟨[gitStatusCmd, gitTrackCmd, gitLogCmd], ?_, rfl⟩
    rw [show s1 = _ from hc]
    simp [WithGitExec, WithExec, gitStatusCmd, gitTrackCmd, gitLogCmd]

/-- Witness for C2: in the dirty environment, `Create` fails with the
uncommitted-changes message and the container holds only the status
command — no status POST. -/
theorem c2_no_post_when_unclean_witness :
    Create envDirty s0 = (.error "found uncommitted changes in the repo",
      WithGitExec ["status", "--porcelain"] s0)
    ∧ ∃ l, (WithGitExec ["status", "--porcelain"] s0).container =
        s0.container ++ l ∧ l.countP isStatusPost = 0 :=
  c2_no_post_when_unclean envDirty s0 "found uncommitted changes in the repo"
    (WithGitExec ["status", "--porcelain"] s0) (by decide)

/-- On success, `IsClean` has issued exactly the three git commands. -/
theorem isClean_ok_shape (env : Env) (s s1 : SignoffState)
    (h : IsClean env s = (.ok (), s1)) :
    s1 = WithGitExec ["log", "@{push}.."]
      (WithGitExec ["rev-parse", "--abbrev-ref", "@{push}"]
        (WithGitExec ["status", "--porcelain"] s)) := by
  have h1 : (IsClean env s).1 = .ok () := by rw [h]
  obtain ⟨ha, hb, hc⟩ := (isClean_ok_iff env s).mp h1
  have h2 := congrArg Prod.snd (isClean_ok env s ha hb hc)
  rw [h] at h2
  exact h2

/-- The state returned by `Sha` is the input state extended by the
`git rev-parse HEAD` command, in every case. -/
theorem sha_shape (env : Env) (s s2 : SignoffState) (r : Except String String)
    (h : Sha env s = (r, s2)) : s2 = WithGitExec ["rev-parse", "HEAD"] s := by
  have hs : (Sha env s).2 = WithGitExec ["rev-parse", "HEAD"] s := by
    simp only [Sha]
    rcases hst : Stdout env (WithGitExec ["rev-parse", "HEAD"] s) with e | out <;> rfl
  rw [h] at hs
  exact hs

/-- The state returned by `WhoIs` is the input state extended by the
`gh api user --jq .login` command, in every case. -/
theorem whoIs_shape (env : Env) (s s3 : SignoffState) (r : Except String String)
    (h : WhoIs env s = (r, s3)) :
    s3 = WithGhExec ["api", "user", "--jq", ".login"] s := by
  have hs : (WhoIs env s).2 = WithGhExec ["api", "user", "--jq", ".login"] s := by
    simp only [WhoIs]
    rcases hw : Out env (WithGhExec ["api", "user", "--jq", ".login"] s) with pe | out <;> rfl
  rw [h] at hs
  exact hs

/-- On the success path, the state returned by `Create` is the state after
`WhoIs` extended by the commit-status POST command. -/
theorem create_post_shape (env : Env) (s s1 s2 s3 : SignoffState) (sha user : String)
    (h1 : IsClean env s = (.ok (), s1))
    (h2 : Sha env s1 = (.ok sha, s2))
    (h3 : WhoIs env s2 = (.ok user, s3)) :
    (Create env s).2 = WithGhExec (statusPostArgs s.checkName sha user) s3 := by
  simp only [Create]
  rw [h1]
  dsimp only
  rw [h2]
  dsimp only
  rw [h3]
  dsimp only
  rcases h4 : Out env (WithGhExec (statusPostArgs s.checkName sha user) s3) with pe | out <;> rfl

/-- C3: when the cleanliness gate passes and `Sha` and `WhoIs` resolve, the
container after `Create` extends the initial one by exactly the five query
commands followed by one `gh api --method POST` command — the only status
POST issued — targeting the status endpoint of the resolved sha, with
`state=success`, `context=<CheckName>` and a description containing the
resolved identity. -/
theorem c3_create_status_post (env : Env) (s : SignoffState)
    (s1 s2 s3 : SignoffState) (sha user : String)
    (h1 : IsClean env s = (.ok (), s1))
    (h2 : Sha env s1 = (.ok sha, s2))
    (h3 : WhoIs env s2 = (.ok user, s3)) :
    ∃ l, (Create env s).2.container = s.container ++ l
      ∧ l.countP isStatusPost = 1
      ∧ l.getLast? = some ("gh" :: statusPostArgs s.checkName sha user)
      ∧ statusPostArgs s.checkName sha user =
          ["api", "--method", "POST", "repos/:owner/:repo/statuses/" ++ sha,
           "-f", "state=success",
           "-f", "context=" ++ s.checkName,
           "-f", "description=\"" ++ user ++ " signed off\""]
      ∧ ∃ pre post, "description=\"" ++ user ++ " signed off\"" = pre ++ user ++ post := by
  refine ⟨[gitStatusCmd, gitTrackCmd, gitLogCmd, gitShaCmd, whoIsCmd,
    "gh" :: statusPostArgs s.checkName sha user], ?_, rfl, rfl, rfl,
    "description=\"", " signed off\"", ?_⟩
  · have e4 := create_post_shape env s s1 s2 s3 sha user h1 h2 h3
    have e3 := whoIs_shape env s2 s3 _ h3
    have e2 := sha_shape env s1 s2 _ h2
    have e1 := isClean_ok_shape env s s1 h1
    rw [e4, e3, e2, e1]
    simp [WithGhExec, WithGitExec, WithExec, gitStatusCmd, gitTrackCmd,
      gitLogCmd, gitShaCmd, whoIsCmd]
  · have : "description=\"" ++ user ++ " signed off\"" =
        "description=\"" ++ user ++ " signed off\"" := rfl
    exact this

/-- Witness for C3: the clean environment with sha `abc123` and user
`alice`. -/
theorem c3_create_status_post_witness :
    ∃ l, (Create envClean s0).2.container = s0.container ++ l
      ∧ l.countP isStatusPost = 1
      ∧ l.getLast? = some ("gh" :: statusPostArgs "signoff" "abc123" "alice")
      ∧ statusPostArgs "signoff" "abc123" "alice" =
          ["api", "--method", "POST", "repos/:owner/:repo/statuses/" ++ "abc123",
           "-f", "state=success",
           "-f", "context=" ++ "signoff",
           "-f", "description=\"" ++ "alice" ++ " signed off\""]
      ∧ ∃ pre post, "description=\"" ++ "alice" ++ " signed off\"" =
          pre ++ "alice" ++ post :=
  c3_create_status_post envClean s0
    ⟨[gitStatusCmd, gitTrackCmd, gitLogCmd], "signoff"⟩
    ⟨[gitStatusCmd, gitTrackCmd, gitLogCmd, gitShaCmd], "signoff"⟩
    ⟨[gitStatusCmd, gitTrackCmd, gitLogCmd, gitShaCmd, whoIsCmd], "signoff"⟩
    "abc123" "alice" (by decide) (by decide) (by decide)

/-- C6: every failure stage of `Create` surfaces the first error: a failing
cleanliness gate, `Sha` or `WhoIs` failure is propagated as-is, and a
failing status POST is wrapped together with the raw captured command
output as `<out>: <err>`. -/
theorem c6_create_error_wrapping (env : Env) (s : SignoffState) :
    (∀ e s1, IsClean env s = (.error e, s1) → (Create env s).1 = .error e)
    ∧ (∀ s1 e s2, IsClean env s = (.ok (), s1) → Sha env s1 = (.error e, s2) →
        (Create env s).1 = .error e)
    ∧ (∀ s1 sha s2 e s3, IsClean env s = (.ok (), s1) →
        Sha env s1 = (.ok sha, s2) → WhoIs env s2 = (.error e, s3) →
        (Create env s).1 = .error e)
    ∧ (∀ s1 sha s2 user s3 out e,
        IsClean env s = (.ok (), s1) → Sha env s1 = (.ok sha, s2) →
        WhoIs env s2 = (.ok user, s3) →
        Out env (WithGhExec (statusPostArgs s.checkName sha user) s3) =
          .error (out, e) →
        (Create env s).1 = .error (out ++ ": " ++ e)) := by
  refine ⟨?_, ?_, ?_, ?_⟩
  · intro e s1 h
    simp only [Create]
    rw [h]
  · intro s1 e s2 h1 h2
    simp only [Create]
    rw [h1]
    dsimp only
    rw [h2]
  · intro s1 sha s2 e s3 h1 h2 h3
    simp only [Create]
    rw [h1]
    dsimp only
    rw [h2]
    dsimp only
    rw [h3]
  · intro s1 sha s2 user s3 out e h1 h2 h3 h4
    simp only [Create]
    rw [h1]
    dsimp only
    rw [h2]
    dsimp only
    rw [h3]
    dsimp only
    rw [h4]

/-- Witness for C6: in the environment where the status POST exits with
code 1 printing `so` / `se`, `Create` fails with the combined output
prepended to the exit-code error. -/
theorem c6_create_error_wrapping_witness :
    (Create envPostFails s0).1 = .error "so\nse: exit code 1" :=
  (c6_create_error_wrapping envPostFails s0).2.2.2
    ⟨[gitStatusCmd, gitTrackCmd, gitLogCmd], "signoff"⟩ "abc123"
    ⟨[gitStatusCmd, gitTrackCmd, gitLogCmd, gitShaCmd], "signoff"⟩ "alice"
    ⟨[gitStatusCmd, gitTrackCmd, gitLogCmd, gitShaCmd, whoIsCmd], "signoff"⟩
    "so\nse" "exit code 1" (by decide) (by decide) (by decide) (by decide)

/-- C5: with an empty branch argument, `Install` and `Uninstall` first issue
the default-branch query (which is not a protection request); a failed
resolution is returned wrapped, an empty resolved branch is a fatal
precondition error — in both cases the returned state is the one right
after the query, so no branch-protection request was issued — and a
nonempty resolved branch leads to the protection request being appended
after the query. -/
theorem c5_branch_resolution (env : Env) (s : SignoffState) :
    ((DefaultBranch env s).2.container = s.container ++ [defaultBranchCmd]
      ∧ isProtectionReq defaultBranchCmd = false)
    ∧ (∀ e s1, DefaultBranch env s = (.error e, s1) →
        Install env "" s = (.error ("could not get the default branch: " ++ e), s1)
        ∧ Uninstall env "" s = (.error ("could not get the default branch: " ++ e), s1))
    ∧ (∀ s1, DefaultBranch env s = (.ok "", s1) →
        Install env "" s = (.error "could not install without a branch name", s1)
        ∧ Uninstall env "" s = (.error "could not uninstall without a branch name", s1))
    ∧ (∀ b s1, DefaultBranch env s = (.ok b, s1) → b ≠ "" →
        (Install env "" s).2 = WithGhExec (protectionPutArgs b s1.checkName) s1
        ∧ (Uninstall env "" s).2 = WithGhExec (protectionDeleteArgs b) s1) := by
  refine ⟨⟨rfl, rfl⟩, ?_, ?_, ?_⟩
  · intro e s1 h
    constructor
    · simp only [Install]
      rw [if_pos trivial, h]
    · simp only [Uninstall]
      rw [if_pos trivial, h]
  · intro s1 h
    constructor
    · simp only [Install]
      rw [if_pos trivial, h]
      dsimp only
      rw [if_pos rfl]
    · simp only [Uninstall]
      rw [if_pos trivial, h]
      dsimp only
      rw [if_pos rfl]
  · intro b s1 h hb
    constructor
    · simp only [Install]
      rw [if_pos trivial, h]
      dsimp only
      rw [if_neg hb]
      rcases ho : Out env (WithGhExec (protectionPutArgs b s1.checkName) s1) with pe | o <;> rfl
    · simp only [Uninstall]
      rw [if_pos trivial, h]
      dsimp only
      rw [if_neg hb]
      rcases ho : Out env (WithGhExec (protectionDeleteArgs b) s1) with pe | o <;> rfl

/-- Witness for C5: in the clean environment the default-branch query
prints the empty string, so both operations fail with their fatal
precondition messages right after the query. -/
theorem c5_branch_resolution_witness :
    Install envClean "" s0 = (.error "could not install without a branch name",
      WithGhExec ["api", "repos/:owner/:repo", "--jq", ".default_branch"] s0)
    ∧ Uninstall envClean "" s0 = (.error "could not uninstall without a branch name",
      WithGhExec ["api", "repos/:owner/:repo", "--jq", ".default_branch"] s0) :=
  (c5_branch_resolution envClean s0).2.2.1
    (WithGhExec ["api", "repos/:owner/:repo", "--jq", ".default_branch"] s0)
    (by decide)

/-- C10: `Out` combines stdout, a newline and stderr; with all three
queries succeeding it fails exactly on a nonzero exit code, in which case
the combined output is still returned alongside the `exit code` error; in
general it succeeds exactly when the queries succeed and the exit code
is 0. -/
theorem c10_out_combined (env : Env) (s : SignoffState) :
    (∀ so se ec, Stdout env s = .ok so → Stderr env s = .ok se →
      ExitCode env s = .ok ec →
      Out env s = if ec = 0 then .ok (so ++ "\n" ++ se)
        else .error (so ++ "\n" ++ se, "exit code " ++ toString ec))
    ∧ ((∃ v, Out env s = .ok v) ↔
        ∃ so se, Stdout env s = .ok so ∧ Stderr env s = .ok se ∧
          ExitCode env s = .ok 0) := by
  constructor
  · intro so se ec h1 h2 h3
    simp only [Out]
    rw [h1]
    dsimp only
    rw [h2]
    dsimp only
    rw [h3]
    dsimp only
    by_cases hec : ec = 0
    · subst hec
      rw [if_neg (not_not_intro rfl), if_pos rfl]
    · rw [if_pos hec, if_neg hec]
  · constructor
    · rintro ⟨v, hv⟩
      simp only [Out] at hv
      rcases hso : Stdout env s with e | so
      · rw [hso] at hv
        exact Except.noConfusion hv
      · rw [hso] at hv
        dsimp only at hv
        rcases hse : Stderr env s with e | se
        · rw [hse] at hv
          exact Except.noConfusion hv
        · rw [hse] at hv
          dsimp only at hv
          rcases hec : ExitCode env s with e | ec
          · rw [hec] at hv
            exact Except.noConfusion hv
          · rw [hec] at hv
            dsimp only at hv
            by_cases h0 : ec = 0
            · subst h0
              exact ⟨so, se, rfl, rfl, rfl⟩
            · rw [if_pos h0] at hv
              exact Except.noConfusion hv
    · rintro ⟨so, se, hso, hse, hec⟩
      refine ⟨so ++ "\n" ++ se, ?_⟩
      simp only [Out]
      rw [hso]
      dsimp only
      rw [hse]
      dsimp only
      rw [hec]
      dsimp only
      rw [if_neg (not_not_intro rfl)]

/-- Witness for C10: on the empty container of the clean environment all
three queries return empty output with exit code 0, so `Out` returns the
newline-joined empty outputs. -/
theorem c10_out_combined_witness :
    Out envClean s0 = .ok "\n" :=
  (c10_out_combined envClean s0).1 "" "" 0 rfl rfl rfl

/-- C4 (refuted for `DefaultBranch`): in the environment where the gh
default-branch query prints `main` followed by a newline, `DefaultBranch`
returns the raw stdout `"main\n"` — not its trimmed form `"main"` — because
the Go code applies no `strings.TrimSpace` to this result (unlike `Sha` and
`WhoIs`). -/
theorem c4_defaultBranch_untrimmed :
    (DefaultBranch envDefaultNL s0).1 = .ok "main\n"
    ∧ trimSpace "main\n" = "main"
    ∧ (DefaultBranch envDefaultNL s0).1 ≠ .ok (trimSpace "main\n") := by
  exact ⟨rfl, rfl, by decide⟩

/-- C4 (confirmed half): `Sha` and `WhoIs` do return the trimmed raw
output: whenever the underlying query succeeds, the result is `trimSpace`
of the captured output. -/
theorem sha_whoIs_trimmed (env : Env) (s : SignoffState) :
    (∀ raw, Stdout env (WithGitExec ["rev-parse", "HEAD"] s) = .ok raw →
      (Sha env s).1 = .ok (trimSpace raw))
    ∧ (∀ raw, Out env (WithGhExec ["api", "user", "--jq", ".login"] s) = .ok raw →
      (WhoIs env s).1 = .ok (trimSpace raw)) := by
  constructor
  · intro raw h
    simp only [Sha]
    rw [h]
  · intro raw h
    simp only [WhoIs]
    rw [h]

/-- Witness for `sha_whoIs_trimmed`: in the clean environment `Sha`
resolves `abc123\n` to the trimmed `abc123`. -/
theorem sha_whoIs_trimmed_witness :
    (Sha envClean s0).1 = .ok (trimSpace "abc123\n")
    ∧ (Sha envClean s0).1 = .ok "abc123" :=
  ⟨(sha_whoIs_trimmed envClean s0).1 "abc123\n" rfl, by decide⟩

/-- C9 (refuted): the jq filter of `PullRequest` selects on
`state == "open"` and `base.ref == <default branch>` only — the head branch
of a pull request is never consulted. An open pull request based on the
default branch whose head is `feature-other` (not the current branch) is
kept by the filter, and the filter output is invariant under any change of
the head field. The command issued by `PullRequest` carries exactly the
`pullsJq` filter text of the resolved default branch. -/
theorem c9_pullRequest_filter_ignores_head :
    pullsJqEval "main"
      [⟨"open", "main", "feature-other", "https://example.test/pull/1"⟩] =
      ["https://example.test/pull/1"]
    ∧ (∀ head : String,
        pullsJqEval "main" [⟨"open", "main", head, "u"⟩] =
        pullsJqEval "main" [⟨"open", "main", "current-branch", "u"⟩])
    ∧ (PullRequest envDefaultNL s0).2.container.getLast? =
        some ["gh", "api", "repos/:owner/:repo/pulls", "--jq", pullsJq "main\n"] :=
  ⟨rfl, fun _ => rfl, rfl⟩

end Signoff

namespace Glow

/-- C7: `ReadMe` fails with the `could not read README.md` context exactly
when reading the contents fails, and otherwise returns the
`DisplayMarkdown` rendering of the contents, propagating any rendering
error as-is. -/
theorem c7_readMe_errors (render : String → String → Except String String)
    (contents : Except String String) :
    (∀ e, contents = .error e →
      ReadMe render contents = .error ("could not read README.md: " ++ e))
    ∧ (∀ c, contents = .ok c →
      ReadMe render contents = DisplayMarkdown render c) := by
  constructor
  · intro e h
    rw [h]
    rfl
  · intro c h
    rw [h]
    rfl

/-- Witness for C7: a failing read is wrapped with context. -/
theorem c7_readMe_errors_witness :
    ReadMe renderFix (.error "boom") = .error "could not read README.md: boom" :=
  (c7_readMe_errors renderFix (.error "boom")).1 "boom" rfl

/-- C8: `DisplayMarkdown` is deterministic — for a fixed rendering function,
invocations on equal input strings yield identical output — and it is the
plain application of the renderer to the input with the fixed `dark`
theme, so the result depends on nothing but the input. -/
theorem c8_displayMarkdown_deterministic
    (render : String → String → Except String String) (str1 str2 : String)
    (h : str1 = str2) :
    DisplayMarkdown render str1 = DisplayMarkdown render str2
    ∧ DisplayMarkdown render str1 = render str1 "dark" :=
  ⟨by rw [h], rfl⟩

/-- Witness for C8 on a concrete renderer and markdown string. -/
theorem c8_displayMarkdown_deterministic_witness :
    ("# title" : String) = "# title"
    ∧ DisplayMarkdown renderFix "# title" = DisplayMarkdown renderFix "# title"
    ∧ DisplayMarkdown renderFix "# title" = renderFix "# title" "dark" :=
  ⟨rfl, (c8_displayMarkdown_deterministic renderFix "# title" "# title" rfl).1,
    (c8_displayMarkdown_deterministic renderFix "# title" "# title" rfl).2⟩

end Glow

end Daggerverse
